import Mathlib

set_option maxRecDepth 8192

/-! Shallow embedding of the image-processing batch pipeline of this repository:
`processing/tasks.py` (class `ImageProcessingTask`), `processing/views.py`
(`UploadCSVView`, `StatusCheckView`), `processing/models.py`
(`ProcessingRequest`, `Product`), `processing/serializers.py` and
`image_processor/response.py`.  Pure functions are translated directly; the
network, the image decoder, and the two persistence steps are modelled by an
explicit environment oracle, and Python exception flow is made explicit as
`Except` values. -/

deriving instance DecidableEq for Except

/-- Double-quote character (the `csv` module's default `quotechar`). -/
def dq : Char := Char.ofNat 34

/-- Splits a character list at every occurrence of `sep`, mirroring Python
`str.split(sep)` for a one-character separator: the result has one more
element than the number of separator occurrences, hence is never empty, and
splitting the empty string yields `[[]]` (Python: `"".split(",") == [""]`). -/
def pySplitChar (sep : Char) : List Char → List (List Char)
  | [] => [[]]
  | c :: rest =>
    if c = sep then [] :: pySplitChar sep rest
    else
      match pySplitChar sep rest with
      | l :: ls => (c :: l) :: ls
      | [] => [[c]]

/-- Python `str.split` on a string, for a one-character separator. -/
def pySplit (sep : Char) (s : String) : List String :=
  (pySplitChar sep s.data).map (fun cs => String.mk cs)

/-- Models `os.path.basename` (POSIX): the part of the path after the last
slash. -/
def pyBasename (s : String) : String :=
  String.mk ((pySplitChar '/' s.data).getLastD [])

/-- Python `str.endswith`, computed on the character lists. -/
def pyEndsWith (s suffix : String) : Bool :=
  suffix.data.isSuffixOf s.data

/-- Models the two-argument `os.path.join` (POSIX): an absolute second
component replaces the first, otherwise the components are joined with a
single slash (the slash tests are computed on the character lists). -/
def pyPathJoin (a b : String) : String :=
  if b.data.head? = some '/' then b
  else if a = "" then b
  else if a.data.getLast? = some '/' then a ++ b
  else a ++ "/" ++ b

/-- Record of `processing/models.py` `ProcessingRequest`: `request_id`
(unique identifier), `created_at` (opaque timestamp string), `completed`
(defaults to false), `result_file` (nullable; modelled as the saved file's
content, `none` until a result file is saved). -/
structure ProcessingRequest where
  request_id : String
  created_at : String
  completed : Bool
  result_file : Option String
deriving DecidableEq

/-- Record of `processing/models.py` `Product`: `request` is the foreign key
(modelled as the owning request id), `input_image_urls` and
`output_image_urls` are comma-delimited strings, `processed` defaults to
false. -/
structure Product where
  request : String
  serial_number : Int
  name : String
  input_image_urls : String
  output_image_urls : String
  processed : Bool
deriving DecidableEq

/-- Outcome of the body of the per-URL `try` block of
`ImageProcessingTask.process_images` for one URL, as decided by the outside
world (network and image bytes).  Each constructor names the statement of the
source that fails:
* `fetchFailure` — `requests.get(url)` / `response.raise_for_status()` raises
  `requests.RequestException`;
* `decodeFailure` — `Image.open(BytesIO(...))` cannot decode the bytes; PIL
  raises `UnidentifiedImageError`, a subclass of `OSError` (and in Python 3
  `IOError` is an alias of `OSError`), so this lands in the `except IOError`
  arm;
* `reencodeIOFailure` — `img.save(img_io, ...)` raises an `OSError` (for
  example: cannot write this mode in this format), also landing in the
  `except IOError` arm;
* `reencodeOtherFailure` — `img.save(img_io, ...)` raises a non-`OSError`
  exception (for example a `KeyError` for a format with no save plugin),
  landing in the final `except Exception` arm, which executes `continue`;
* `fileWriteFailure` — the `open(file_path, "wb")` / `f.write` step raises an
  `IOError`;
* `success` — the whole body runs, the compressed file is written and its URL
  appended. -/
inductive UrlOutcome where
  | fetchFailure
  | decodeFailure
  | reencodeIOFailure
  | reencodeOtherFailure
  | fileWriteFailure
  | success
deriving DecidableEq

/-- Environment of one task run: the per-URL outcome oracle, the value of
`settings.MEDIA_URL`, and whether the two persistence calls
(`result_file.save` inside `generate_csv`, and the model save inside
`complete_request`) succeed. -/
structure Env where
  urlOutcome : String → UrlOutcome
  mediaUrl : String
  csvSaveOk : Bool
  completeOk : Bool

/-- Python exceptions that escape a modelled block. -/
inductive PyError where
  | valueError (msg : String)
  | unboundLocalError (varName : String)
  | assertionError (msg : String)
deriving DecidableEq

/-- Models `requests.get`: on the empty-string URL, `requests.get("")`
deterministically raises `MissingSchema`, a subclass of
`requests.RequestException`, before any network activity; every other URL's
outcome is given by the oracle. -/
def fetchOutcome (env : Env) (url : String) : UrlOutcome :=
  if url = "" then UrlOutcome.fetchFailure else env.urlOutcome url

/-- Filename used by `process_images`:
`"compressed_" + os.path.basename(url)`. -/
def mkFilename (url : String) : String := "compressed_" ++ pyBasename url

/-- Output image URL recorded by `process_images`:
`os.path.join(settings.MEDIA_URL, "processed_images", filename)`. -/
def mkImageUrl (env : Env) (url : String) : String :=
  pyPathJoin (pyPathJoin env.mediaUrl "processed_images") (mkFilename url)

/-- Input URL list of a product: `product.input_image_urls.split(",")`. -/
def inputUrls (p : Product) : List String :=
  pySplit ',' p.input_image_urls

/-- State threaded through the inner URL loop of `process_images`:
the `output_urls` accumulator, and the current binding state of the local
variable `filename` (a function-scoped Python local, assigned only after a
successful re-encode, and retained across loop iterations — the
`except IOError` arm reads it in its log/raise f-string). -/
structure LoopState where
  outputs : List String
  lastFilename : Option String
deriving DecidableEq

/-- Inner `for url in input_urls` loop of `process_images`.  Translation of
the `try/except` arms:
* `RequestException` → `raise ValueError("Failed to fetch image from URL ...")`
  (the underlying-cause suffix of the message is elided);
* an `IOError` raised before `filename` is assigned (decode failure or
  re-encode `OSError`) makes the handler's f-string itself raise
  `UnboundLocalError` for `filename` when no earlier URL of this run assigned
  it, and otherwise `raise ValueError("Failed to save image to file <stale>")`;
* an `IOError` at the file-write step (after `filename` was assigned) →
  `raise ValueError("Failed to save image to file ...")`;
* any other exception → `continue`;
* success → append the output URL. -/
def processUrlsLoop (env : Env) : List String → LoopState → Except PyError LoopState
  | [], st => Except.ok st
  | url :: rest, st =>
    match fetchOutcome env url with
    | UrlOutcome.fetchFailure =>
      Except.error (PyError.valueError ("Failed to fetch image from URL " ++ url))
    | UrlOutcome.decodeFailure =>
      match st.lastFilename with
      | none => Except.error (PyError.unboundLocalError "filename")
      | some fn => Except.error (PyError.valueError ("Failed to save image to file " ++ fn))
    | UrlOutcome.reencodeIOFailure =>
      match st.lastFilename with
      | none => Except.error (PyError.unboundLocalError "filename")
      | some fn => Except.error (PyError.valueError ("Failed to save image to file " ++ fn))
    | UrlOutcome.reencodeOtherFailure => processUrlsLoop env rest st
    | UrlOutcome.fileWriteFailure =>
      Except.error (PyError.valueError ("Failed to save image to file " ++ mkFilename url))
    | UrlOutcome.success =>
      processUrlsLoop env rest ⟨st.outputs ++ [mkImageUrl env url], some (mkFilename url)⟩

/-- Row of the `output_data` accumulator of `process_images` (one dict per
product, built after the product has been updated and saved). -/
structure SummaryRow where
  serialNumber : Int
  productName : String
  inputImageUrls : String
  outputImageUrls : String
deriving DecidableEq

/-- Summary row built by `process_images` from the (already updated)
product. -/
def summaryRowOf (p : Product) : SummaryRow :=
  ⟨p.serial_number, p.name, p.input_image_urls, p.output_image_urls⟩

/-- Result of the outer product loop of `process_images`: the product rows as
left in the record store, the `output_data` accumulator, the final binding
state of the `filename` local, and the exception that escaped the loop, if
any. -/
structure BatchResult where
  products : List Product
  rows : List SummaryRow
  lastFilename : Option String
  error : Option PyError
deriving DecidableEq

/-- Outer `for product in products` loop of `process_images`.  On a fatal
per-URL exception the loop aborts immediately: the current product and all
later products are left untouched (their `processed` flags keep their prior
values) and the accumulated rows are discarded with the raised error; on
success the product's `output_image_urls` is set to the comma-join of the
collected outputs, `processed` is set to true, the product is saved, and a
summary row is appended. -/
def runBatch (env : Env) : List Product → Option String → BatchResult
  | [], fn => ⟨[], [], fn, none⟩
  | p :: ps, fn =>
    match processUrlsLoop env (inputUrls p) ⟨[], fn⟩ with
    | Except.error e => ⟨p :: ps, [], fn, some e⟩
    | Except.ok st =>
      let p' : Product :=
        { p with output_image_urls := String.intercalate "," st.outputs, processed := true }
      let r := runBatch env ps st.lastFilename
      ⟨p' :: r.products, summaryRowOf p' :: r.rows, r.lastFilename, r.error⟩

/-- Fixed field-name list of the summary CSV, from `generate_csv`'s
`fieldnames` argument to `csv.DictWriter`. -/
def summaryHeaderFields : List String :=
  ["Serial Number", "Product Name", "Input Image Urls", "Output Image Urls"]

/-- Field values of one summary row, in header order, each rendered with
`str()` as `csv.writer` does (`serial_number` is an integer, the rest are
strings). -/
def rowFields (r : SummaryRow) : List String :=
  [toString r.serialNumber, r.productName, r.inputImageUrls, r.outputImageUrls]

/-- Character-level view of `rowFields`. -/
def rowFieldsChars (r : SummaryRow) : List (List Char) :=
  (rowFields r).map String.data

/-- Whether the `csv` module's default `QUOTE_MINIMAL` dialect must quote a
field: it contains the delimiter, the quotechar, or a CR or LF. -/
def csvNeedsQuote : List Char → Bool
  | [] => false
  | c :: rest =>
    if c = ',' ∨ c = dq ∨ c = '\r' ∨ c = '\n' then true else csvNeedsQuote rest

/-- Doubles every quotechar, as the `csv` writer does inside quoted fields. -/
def csvEscape : List Char → List Char
  | [] => []
  | c :: rest => if c = dq then dq :: dq :: csvEscape rest else c :: csvEscape rest

/-- Renders one field the way `csv.writer` (default dialect) does. -/
def csvFieldChars (f : List Char) : List Char :=
  if csvNeedsQuote f then dq :: (csvEscape f ++ [dq]) else f

/-- Renders one record: fields joined with the `,` delimiter. -/
def csvRecordChars : List (List Char) → List Char
  | [] => []
  | [f] => csvFieldChars f
  | f :: fs => csvFieldChars f ++ ',' :: csvRecordChars fs

/-- Joins rendered records, terminating every record with the writer's
default `\r\n` line terminator. -/
def csvLines : List (List Char) → List Char
  | [] => []
  | r :: rs => r ++ '\r' :: '\n' :: csvLines rs

/-- Character content of the file produced by
`ImageProcessingTask.generate_csv`: the header record followed by one record
per accumulated row, in order. -/
def generateCsvChars (rows : List SummaryRow) : List Char :=
  csvLines (((summaryHeaderFields.map String.data) :: rows.map rowFieldsChars).map csvRecordChars)

/-- String content of the generated summary CSV file. -/
def generateCsvContent (rows : List SummaryRow) : String :=
  String.mk (generateCsvChars rows)

/-- Result of one `ImageProcessingTask.process_images` call: the product rows
and request row as left in the record store, and the exception escaping the
method, if any. -/
structure RunResult where
  products : List Product
  request : ProcessingRequest
  error : Option PyError
deriving DecidableEq

/-- Models `ImageProcessingTask.process_images` end to end: run the product
loop; if it raised, the exception escapes with the store as the loop left it.
Otherwise `generate_csv` runs (on failure its exception is wrapped in
`ValueError("Failed to generate CSV file")` and the request is left
untouched; on success `result_file` is saved with the generated content while
`completed` is still false), and then `complete_request` runs (on failure the
wrapped `ValueError("Failed to complete request")` escapes with `completed`
still unchanged; on success `completed` is set to true as the final write). -/
def processImages (env : Env) (req : ProcessingRequest) (ps : List Product) : RunResult :=
  let b := runBatch env ps none
  match b.error with
  | some e => ⟨b.products, req, some e⟩
  | none =>
    if env.csvSaveOk then
      let req1 : ProcessingRequest := { req with result_file := some (generateCsvContent b.rows) }
      if env.completeOk then
        ⟨b.products, { req1 with completed := true }, none⟩
      else ⟨b.products, req1, some (PyError.valueError "Failed to complete request")⟩
    else ⟨b.products, req, some (PyError.valueError "Failed to generate CSV file")⟩

/-- Models the task entry point `ImageProcessingTask.run(request_id)`:
`store` is the record-store lookup result for the request id (`none` when no
`ProcessingRequest` with that id exists, in which case `__init__` raises a
`ValueError`, caught and logged by `run`).  The second component is the
exception that `run` lets escape to its caller: `run` catches exactly
`ValueError`, so any other exception raised inside `process_images`
propagates. -/
def runTask (env : Env) (store : Option (ProcessingRequest × List Product)) :
    Option RunResult × Option PyError :=
  match store with
  | none => (none, none)
  | some (req, ps) =>
    let r := processImages env req ps
    match r.error with
    | some (PyError.valueError _) => (some r, none)
    | some e => (some r, some e)
    | none => (some r, none)

/-- Specification-level output list of one item, following the spec's words:
one entry per input URL that was both fetched and transcoded (and stored)
successfully, in input order. -/
def specOutputUrls (env : Env) (p : Product) : List String :=
  ((inputUrls p).filter (fun u => decide (fetchOutcome env u = UrlOutcome.success))).map
    (mkImageUrl env)

/-- Specification-level final state of a successfully processed item. -/
def processedProduct (env : Env) (p : Product) : Product :=
  { p with output_image_urls := String.intercalate "," (specOutputUrls env p),
           processed := true }

/-- Modelled from the spec: `processing/messages.py` is not among the
provided sources; each message constant is an opaque distinct token whose
exact text is immaterial to the claims. -/
def MSG_NO_UPLOADED_FILE : String := "NO_UPLOADED_FILE"

/-- Opaque stand-in for `messages.NOT_CSV_FILE`. -/
def MSG_NOT_CSV_FILE : String := "NOT_CSV_FILE"

/-- Opaque stand-in for `messages.CSV_FILE_READ_ERROR`. -/
def MSG_CSV_FILE_READ_ERROR : String := "CSV_FILE_READ_ERROR"

/-- Opaque stand-in for `messages.IMAGE_PROCESSING_EXCEPTION`. -/
def MSG_IMAGE_PROCESSING_EXCEPTION : String := "IMAGE_PROCESSING_EXCEPTION"

/-- Opaque stand-in for `messages.MISSING_REQUEST_ID`. -/
def MSG_MISSING_REQUEST_ID : String := "MISSING_REQUEST_ID"

/-- Opaque stand-in for `messages.STATUS_EXCEPTION`. -/
def MSG_STATUS_EXCEPTION : String := "STATUS_EXCEPTION"

/-- Response returned by a view: either an `APIResponse` with a data payload
and an explicit HTTP status, or an `ErrorAPIResponse` (body
`{"error": message}`, see `image_processor/response.py`) whose status
argument may be omitted (`none`). -/
inductive ViewResponse where
  | api (data : List (String × String)) (status : Nat)
  | err (message : String) (status : Option Nat)
deriving DecidableEq

/-- HTTP status actually sent for a response: a DRF `Response` built with
`status=None` keeps `HttpResponseBase`'s class default `status_code = 200`. -/
def responseHttpStatus : ViewResponse → Nat
  | ViewResponse.api _ s => s
  | ViewResponse.err _ (some s) => s
  | ViewResponse.err _ none => 200

/-- Fields declared directly on `ProcessingRequestSerializer`
(`products = ProductSerializer(many=True, read_only=True)`). -/
def serializerDeclaredFields : List String := ["products"]

/-- The serializer's `Meta.fields` list. -/
def serializerMetaFields : List String := ["request_id", "created_at", "completed"]

/-- Models accessing `ProcessingRequestSerializer(request).data`.  DRF's
`ModelSerializer.get_field_names` asserts that every declared field is listed
in `Meta.fields` and raises an `AssertionError` otherwise; only if that check
passes is the projection of `Meta.fields` produced. -/
def serializerData (req : ProcessingRequest) : Except PyError (List (String × String)) :=
  if serializerDeclaredFields.all (fun f => serializerMetaFields.contains f) then
    Except.ok
      [("request_id", req.request_id), ("created_at", req.created_at),
       ("completed", toString req.completed)]
  else
    Except.error (PyError.assertionError
      "The field products was declared on serializer ProcessingRequestSerializer, but has not been included in the fields option.")

/-- Models `StatusCheckView.get`: a missing or empty `request_id` query
parameter yields a 400 error; otherwise the request row is looked up
(`get_object_or_404` raises `Http404`, an `Exception`, on a miss) and the
serializer data is produced.  The whole body sits in a bare
`try/except Exception` arm that turns any exception — including the `Http404`
and the serializer's `AssertionError` — into
`ErrorAPIResponse(message=messages.STATUS_EXCEPTION)` with no status
argument. -/
def statusCheckGet (requests : List ProcessingRequest) (requestId : Option String) :
    ViewResponse :=
  match requestId with
  | none => ViewResponse.err MSG_MISSING_REQUEST_ID (some 400)
  | some rid =>
    if rid = "" then ViewResponse.err MSG_MISSING_REQUEST_ID (some 400)
    else
      match requests.find? (fun r => r.request_id == rid) with
      | none => ViewResponse.err MSG_STATUS_EXCEPTION none
      | some r =>
        match serializerData r with
        | Except.error _ => ViewResponse.err MSG_STATUS_EXCEPTION none
        | Except.ok d => ViewResponse.api d 200

/-- Record store visible to the upload view: the persisted
`ProcessingRequest` rows and `Product` rows. -/
structure UploadState where
  requests : List ProcessingRequest
  products : List Product
deriving DecidableEq

/-- One upload request as `UploadCSVView.post` observes it: whether a file
was attached, its name, the `csv.DictReader.fieldnames` of its content
(`none` when no header row could be read), the parsed data rows (serial
number, product name, input image URLs — the serial number's string-to-int
coercion by the `IntegerField` is applied), and whether the synchronous
`ImageProcessingTask.run` trigger raised. -/
structure UploadRequest where
  hasFile : Bool
  fileName : String
  fieldnames : Option (List String)
  rows : List (Int × String × String)
  triggerRaises : Bool
deriving DecidableEq

/-- Required CSV columns checked by `UploadCSVView.post`. -/
def requiredColumns : List String := ["Serial Number", "Product Name", "Input Image Urls"]

/-- Models `UploadCSVView.post`: file-presence and `.csv`-suffix checks come
first and create nothing; then `ProcessingRequest.objects.create` persists
the request row; only after that are the header fields read and the required
columns validated, each failure returning a 400 error while the request row
stays stored; on success one `Product` row per data row is created and the
processing task is triggered synchronously (a raising trigger is caught and
answered with a 400 error). -/
def uploadCsvPost (st : UploadState) (rid createdAt : String) (up : UploadRequest) :
    ViewResponse × UploadState :=
  if !up.hasFile then (ViewResponse.err MSG_NO_UPLOADED_FILE (some 400), st)
  else if !(pyEndsWith up.fileName ".csv") then
    (ViewResponse.err MSG_NOT_CSV_FILE (some 400), st)
  else
    let st1 : UploadState :=
      { st with requests := st.requests ++ [⟨rid, createdAt, false, none⟩] }
    match up.fieldnames with
    | none => (ViewResponse.err MSG_CSV_FILE_READ_ERROR (some 400), st1)
    | some fns =>
      let missing := requiredColumns.filter (fun c => !(fns.contains c))
      if missing ≠ [] then
        (ViewResponse.err ("Missing columns: " ++ String.intercalate ", " missing) (some 400),
          st1)
      else
        let st2 : UploadState :=
          { st1 with products := st1.products ++
              up.rows.map (fun r => ⟨rid, r.1, r.2.1, r.2.2, "", false⟩) }
        if up.triggerRaises then
          (ViewResponse.err MSG_IMAGE_PROCESSING_EXCEPTION (some 400), st2)
        else (ViewResponse.api [("request_id", rid)] 201, st2)

/-- CSV record parser, quoted-field case: consumes characters after an
opening quotechar up to the matching closing quotechar, undoubling doubled
quotechars, and returns the field with the characters following the closing
quotechar. -/
def parseQuotedField : List Char → Option (List Char × List Char)
  | [] => none
  | c :: rest =>
    if c = dq then
      match rest with
      | c2 :: rest2 =>
        if c2 = dq then (parseQuotedField rest2).map (fun p => (dq :: p.1, p.2))
        else some ([], rest)
      | [] => some ([], [])
    else (parseQuotedField rest).map (fun p => (c :: p.1, p.2))

/-- CSV record parser, unquoted-field case: consumes characters up to the
next delimiter or the end of the record. -/
def parseUnquotedField : List Char → List Char × List Char
  | [] => ([], [])
  | c :: rest =>
    if c = ',' then ([], c :: rest)
    else
      let p := parseUnquotedField rest
      (c :: p.1, p.2)

/-- Parses one field at the start of a record: a leading quotechar selects
the quoted grammar, anything else the unquoted one. -/
def parseFieldAt (cs : List Char) : Option (List Char × List Char) :=
  match cs with
  | c :: _ => if c = dq then parseQuotedField cs.tail else some (parseUnquotedField cs)
  | [] => some ([], [])

/-- Parses a full record as delimiter-separated fields; the fuel bounds the
number of fields. -/
def parseRecordAux : Nat → List Char → Option (List (List Char))
  | 0, _ => none
  | fuel + 1, cs =>
    match parseFieldAt cs with
    | none => none
    | some (f, rest) =>
      match rest with
      | [] => some [f]
      | c :: rest3 =>
        if c = ',' then (parseRecordAux fuel rest3).map (fun fs => f :: fs)
        else none

/-- Parses one CSV record. -/
def parseRecord (cs : List Char) : Option (List (List Char)) :=
  parseRecordAux (cs.length + 1) cs

/-- Splits a character stream at every `\r\n` pair. -/
def splitCRLF : List Char → List (List Char)
  | [] => [[]]
  | [c] => [[c]]
  | c :: c2 :: rest =>
    if c = '\r' ∧ c2 = '\n' then [] :: splitCRLF rest
    else
      match splitCRLF (c2 :: rest) with
      | l :: ls => (c :: l) :: ls
      | [] => [[c]]

/-- Parses a list of records. -/
def parseRecords : List (List Char) → Option (List (List (List Char)))
  | [] => some []
  | l :: ls =>
    match parseRecord l, parseRecords ls with
    | some r, some rs => some (r :: rs)
    | _, _ => none

/-- Parses a generated summary artifact back into records: the content is
split at the `\r\n` record terminators (the final terminator leaves one empty
trailing chunk, which is dropped) and each record is parsed into its
fields. -/
def parseArtifact (s : String) : Option (List (List (List Char))) :=
  parseRecords ((splitCRLF s.data).dropLast)

/-- Environment in which every fetch succeeds but no fetched bytes decode as
an image. -/
def envDecodeAll : Env := ⟨fun _ => UrlOutcome.decodeFailure, "/media/", true, true⟩

/-- Environment in which every fetch fails. -/
def envFetchAll : Env := ⟨fun _ => UrlOutcome.fetchFailure, "/media/", true, true⟩

/-- Environment in which every URL processes successfully and both
persistence steps succeed. -/
def envOk : Env := ⟨fun _ => UrlOutcome.success, "/media/", true, true⟩

/-- Environment in which processing succeeds but saving the summary CSV
fails. -/
def envCsvFail : Env := ⟨fun _ => UrlOutcome.success, "/media/", false, true⟩

/-- Environment in which everything succeeds except the final
`complete_request` save. -/
def envCompleteFail : Env := ⟨fun _ => UrlOutcome.success, "/media/", true, false⟩

/-- Environment in which exactly `http://host/a.jpg` processes successfully
and every other URL fetches but fails to decode. -/
def envMixed : Env :=
  ⟨fun u => if u = "http://host/a.jpg" then UrlOutcome.success else UrlOutcome.decodeFailure,
   "/media/", true, true⟩

/-- Concrete pending processing request. -/
def reqA : ProcessingRequest := ⟨"req-a", "2024-01-01T00:00:00Z", false, none⟩

/-- Concrete product with a single input URL. -/
def prodA : Product := ⟨"req-a", 1, "Widget", "http://host/a.jpg", "", false⟩

/-- Concrete product with two input URLs. -/
def prodAB : Product :=
  ⟨"req-a", 1, "Widget", "http://host/a.jpg,http://host/b.jpg", "", false⟩

/-- Concrete product whose `input_image_urls` field is the empty string. -/
def prodEmptyUrls : Product := ⟨"req-a", 2, "Empty", "", "", false⟩

/-- Concrete upload whose CSV is a `.csv` file with a readable header that
misses two of the three required columns. -/
def upMissingCols : UploadRequest := ⟨true, "data.csv", some ["Serial Number"], [], false⟩

/-- C1, code bug, actual behaviour at the failing input.  The claim says a
fetchable-but-undecodable URL is skipped and the item still gets
`processed = true` with the URL's entry simply missing.  In the source,
`Image.open` failing raises `UnidentifiedImageError`, a subclass of
`OSError` = `IOError`, so it is captured by the `except IOError` arm whose
log f-string reads the still-unassigned local `filename`, raising
`UnboundLocalError`; with a single undecodable URL the item is aborted
unprocessed and the job never completes.  When an earlier URL of the run has
already assigned `filename` (second conjunct group, `prodAB` under
`envMixed`), the same arm instead raises
`ValueError("Failed to save image to file <stale filename>")` — so an item
with N URLs and one transcode failure aborts rather than yielding N−1
outputs. -/
theorem c1_undecodable_bytes_abort_item :
    (processImages envDecodeAll reqA [prodA]).error =
        some (PyError.unboundLocalError "filename") ∧
    (processImages envDecodeAll reqA [prodA]).products = [prodA] ∧
    prodA.processed = false ∧
    (processImages envDecodeAll reqA [prodA]).request.completed = false ∧
    (processImages envMixed reqA [prodAB]).error =
        some (PyError.valueError "Failed to save image to file compressed_a.jpg") ∧
    (processImages envMixed reqA [prodAB]).products = [prodAB] := by
  decide

/-- C8, code bug, actual behaviour at the failing input.  The claim says
`run(request_id)` never propagates an error.  `run` catches only
`ValueError`; the `UnboundLocalError` raised on a fetchable-but-undecodable
first URL escapes to the caller (first conjunct).  The remaining conjuncts
check that the failure kinds the claim enumerates are indeed caught: an
unknown request id, a fetch failure, a summary-save failure and a completion
failure all surface as `ValueError` and `run` returns normally. -/
theorem c8_run_propagates_unbound_local :
    (runTask envDecodeAll (some (reqA, [prodA]))).2 =
        some (PyError.unboundLocalError "filename") ∧
    (runTask envOk none).2 = none ∧
    (runTask envFetchAll (some (reqA, [prodA]))).2 = none ∧
    (runTask envCsvFail (some (reqA, [prodA]))).2 = none ∧
    (runTask envCompleteFail (some (reqA, [prodA]))).2 = none := by
  decide

/-- C6, code bug, actual behaviour.  The claim says the status query returns
the job identifier, creation timestamp, completed flag and per-item details.
`ProcessingRequestSerializer` declares a `products` nested serializer but
omits it from `Meta.fields`, so DRF's `get_field_names` assertion fails the
moment `serializer.data` is accessed; the view's bare `except Exception`
converts that into a generic `ErrorAPIResponse` with the opaque
status-exception message and no status code — no job or item field is ever
returned for an existing job. -/
theorem c6_status_query_misconfigured_serializer :
    serializerData reqA =
      Except.error (PyError.assertionError
        "The field products was declared on serializer ProcessingRequestSerializer, but has not been included in the fields option.") ∧
    statusCheckGet [reqA] (some "req-a") = ViewResponse.err MSG_STATUS_EXCEPTION none := by
  decide

/-- C7, code bug, actual behaviour.  The claim says an unknown `request_id`
is surfaced as a not-found error response.  `get_object_or_404` does raise
`Http404`, but the view wraps its whole body in `except Exception`, which
catches `Http404` and returns the generic status-exception
`ErrorAPIResponse` built with no status argument — sent with the HTTP
default 200, not 404. -/
theorem c7_unknown_id_swallowed_404 :
    statusCheckGet [] (some "ghost-id") = ViewResponse.err MSG_STATUS_EXCEPTION none ∧
    statusCheckGet [reqA] (some "ghost-id") = ViewResponse.err MSG_STATUS_EXCEPTION none ∧
    responseHttpStatus (statusCheckGet [] (some "ghost-id")) = 200 := by
  decide

/-- Processing a concatenation of URL lists is the processing of the first
list bound into the processing of the second. -/
theorem processUrlsLoop_append (env : Env) (us1 us2 : List String) (st : LoopState) :
    processUrlsLoop env (us1 ++ us2) st =
      (processUrlsLoop env us1 st).bind (fun st1 => processUrlsLoop env us2 st1) := by
  induction us1 generalizing st with
  | nil => rfl
  | cons u us ih =>
    show processUrlsLoop env (u :: (us ++ us2)) st = _
    cases h : fetchOutcome env u with
    | fetchFailure => simp [processUrlsLoop, h, Except.bind]
    | decodeFailure =>
      cases hf : st.lastFilename <;> simp [processUrlsLoop, h, hf, Except.bind]
    | reencodeIOFailure =>
      cases hf : st.lastFilename <;> simp [processUrlsLoop, h, hf, Except.bind]
    | reencodeOtherFailure => simp [processUrlsLoop, h, ih]
    | fileWriteFailure => simp [processUrlsLoop, h, Except.bind]
    | success => simp [processUrlsLoop, h, ih]

/-- When the URL loop completes without a fatal exception, the collected
outputs are exactly the images of the successfully processed URLs, appended
in input order. -/
theorem processUrlsLoop_ok_outputs (env : Env) (us : List String) (st st' : LoopState)
    (h : processUrlsLoop env us st = Except.ok st') :
    st'.outputs = st.outputs ++
      (us.filter (fun u => decide (fetchOutcome env u = UrlOutcome.success))).map
        (mkImageUrl env) := by
  induction us generalizing st with
  | nil =>
    simp [processUrlsLoop] at h
    simp [← h]
  | cons u us ih =>
    cases ho : fetchOutcome env u with
    | fetchFailure => simp [processUrlsLoop, ho] at h
    | decodeFailure =>
      cases hf : st.lastFilename <;> simp [processUrlsLoop, ho, hf] at h
    | reencodeIOFailure =>
      cases hf : st.lastFilename <;> simp [processUrlsLoop, ho, hf] at h
    | reencodeOtherFailure =>
      simp only [processUrlsLoop, ho] at h
      rw [ih st h]
      simp [List.filter_cons, ho]
    | fileWriteFailure => simp [processUrlsLoop, ho] at h
    | success =>
      simp only [processUrlsLoop, ho] at h
      rw [ih _ h]
      simp [List.filter_cons, ho, List.append_assoc]

/-- When the product loop completes without a fatal exception, every product
is replaced by its processed form — `output_image_urls` set to the comma-join
of the successful URLs' outputs and `processed` set to true — and the summary
accumulator holds exactly one row per product, in manifest order. -/
theorem runBatch_ok_spec (env : Env) (ps : List Product) (fn : Option String)
    (h : (runBatch env ps fn).error = none) :
    (runBatch env ps fn).products = ps.map (processedProduct env) ∧
    (runBatch env ps fn).rows = ps.map (fun p => summaryRowOf (processedProduct env p)) := by
  induction ps generalizing fn with
  | nil => simp [runBatch]
  | cons p ps ih =>
    cases hl : processUrlsLoop env (inputUrls p) ⟨[], fn⟩ with
    | error e => simp [runBatch, hl] at h
    | ok st =>
      have hout := processUrlsLoop_ok_outputs env _ _ _ hl
      have hst : st.outputs = specOutputUrls env p := by
        rw [hout]; simp [specOutputUrls]
      simp only [runBatch, hl] at h ⊢
      obtain ⟨hp, hr⟩ := ih st.lastFilename h
      constructor
      · simp [hp, processedProduct, hst]
      · simp [hr, summaryRowOf, processedProduct, hst]

/-- Running the product loop on a concatenation whose prefix raises nothing
is the run on the prefix followed by the run on the suffix (threading the
`filename` binding state). -/
theorem runBatch_append (env : Env) (pre rest : List Product) (fn : Option String)
    (h : (runBatch env pre fn).error = none) :
    runBatch env (pre ++ rest) fn =
      ⟨(runBatch env pre fn).products ++
          (runBatch env rest (runBatch env pre fn).lastFilename).products,
        (runBatch env pre fn).rows ++
          (runBatch env rest (runBatch env pre fn).lastFilename).rows,
        (runBatch env rest (runBatch env pre fn).lastFilename).lastFilename,
        (runBatch env rest (runBatch env pre fn).lastFilename).error⟩ := by
  induction pre generalizing fn with
  | nil => simp [runBatch]
  | cons p ps ih =>
    cases hl : processUrlsLoop env (inputUrls p) ⟨[], fn⟩ with
    | error e => simp [runBatch, hl] at h
    | ok st =>
      simp only [runBatch, hl] at h
      simp only [List.cons_append, runBatch, hl, List.append_eq]
      rw [ih st.lastFilename h]

/-- The record-store product rows left by `process_images` are exactly those
left by its product loop, whatever happens afterwards. -/
theorem processImages_products (env : Env) (req : ProcessingRequest) (ps : List Product) :
    (processImages env req ps).products = (runBatch env ps none).products := by
  unfold processImages
  cases h : (runBatch env ps none).error with
  | none => cases hc : env.csvSaveOk <;> cases ho : env.completeOk <;> simp [h, hc, ho]
  | some e => simp [h]

/-- Python `str.split` never returns an empty list. -/
theorem pySplitChar_ne_nil (sep : Char) (l : List Char) : pySplitChar sep l ≠ [] := by
  cases l with
  | nil => simp [pySplitChar]
  | cons c rest =>
    by_cases hc : c = sep
    · simp [pySplitChar, hc]
    · simp only [pySplitChar, if_neg hc]
      cases pySplitChar sep rest <;> simp

/-- A fatal exception while processing the URLs of item `p` (after an
error-free prefix of items) aborts `process_images` as a whole: the item and
all items after it are untouched, no CSV is generated, the request row is
untouched, and the exception escapes. -/
theorem batch_fatal_on_loop_error (env : Env) (req : ProcessingRequest)
    (pre : List Product) (p : Product) (post : List Product) (e : PyError)
    (hpre : (runBatch env pre none).error = none)
    (hloop : processUrlsLoop env (inputUrls p)
        ⟨[], (runBatch env pre none).lastFilename⟩ = Except.error e) :
    processImages env req (pre ++ p :: post) =
      ⟨pre.map (processedProduct env) ++ p :: post, req, some e⟩ := by
  have h2 : runBatch env (p :: post) (runBatch env pre none).lastFilename =
      ⟨p :: post, [], (runBatch env pre none).lastFilename, some e⟩ := by
    simp [runBatch, hloop]
  have hb := runBatch_append env pre (p :: post) none hpre
  rw [h2] at hb
  have h1 := (runBatch_ok_spec env pre none hpre).1
  simp only [processImages]
  rw [hb]
  simp [h1]

/-- C2: a fetch failure on any input URL of an item is item-fatal and
batch-fatal — the raised `ValueError` aborts `process_images`, the failing
item keeps `processed` unchanged (in particular false), no later item is
touched or marked, items of the error-free prefix keep their already-saved
processed state (no rollback), and the request row — hence its `completed`
flag — is left untouched. -/
theorem c2_fetch_failure_halts_batch (env : Env) (req : ProcessingRequest)
    (pre : List Product) (p : Product) (post : List Product)
    (us1 : List String) (u : String) (us2 : List String) (st1 : LoopState)
    (hpre : (runBatch env pre none).error = none)
    (hsplit : inputUrls p = us1 ++ u :: us2)
    (hus1 : processUrlsLoop env us1 ⟨[], (runBatch env pre none).lastFilename⟩ =
        Except.ok st1)
    (hu : fetchOutcome env u = UrlOutcome.fetchFailure) :
    (processImages env req (pre ++ p :: post)).error =
        some (PyError.valueError ("Failed to fetch image from URL " ++ u)) ∧
    (processImages env req (pre ++ p :: post)).products =
        pre.map (processedProduct env) ++ p :: post ∧
    (processImages env req (pre ++ p :: post)).request = req := by
  have hloop : processUrlsLoop env (inputUrls p)
      ⟨[], (runBatch env pre none).lastFilename⟩ =
      Except.error (PyError.valueError ("Failed to fetch image from URL " ++ u)) := by
    rw [hsplit, processUrlsLoop_append, hus1]
    simp [Except.bind, processUrlsLoop, hu]
  rw [batch_fatal_on_loop_error env req pre p post _ hpre hloop]
  exact ⟨rfl, rfl, rfl⟩

/-- C3: the request's `completed` flag can end up true only when it already
was, or when the whole run succeeded — every stored product row marked
processed and the summary artifact saved into `result_file` before the flag
write — and the flag never reverts: a request already completed stays
completed. -/
theorem c3_completed_flag_gated (env : Env) (req : ProcessingRequest) (ps : List Product) :
    ((processImages env req ps).request.completed = true →
        req.completed = true ∨
          ((processImages env req ps).error = none ∧
            (∀ q ∈ (processImages env req ps).products, q.processed = true) ∧
            (processImages env req ps).request.result_file =
              some (generateCsvContent (runBatch env ps none).rows))) ∧
    (req.completed = true → (processImages env req ps).request.completed = true) := by
  cases hb : (runBatch env ps none).error with
  | some e =>
    have hPI : processImages env req ps = ⟨(runBatch env ps none).products, req, some e⟩ := by
      simp only [processImages]
      rw [hb]
    rw [hPI]
    exact ⟨fun h => Or.inl h, fun h => h⟩
  | none =>
    cases hc : env.csvSaveOk with
    | false =>
      have hPI : processImages env req ps =
          ⟨(runBatch env ps none).products, req,
            some (PyError.valueError "Failed to generate CSV file")⟩ := by
        simp only [processImages]
        rw [hb]
        simp [hc]
      rw [hPI]
      exact ⟨fun h => Or.inl h, fun h => h⟩
    | true =>
      cases ho : env.completeOk with
      | false =>
        have hPI : processImages env req ps =
            ⟨(runBatch env ps none).products,
              { req with result_file := some (generateCsvContent (runBatch env ps none).rows) },
              some (PyError.valueError "Failed to complete request")⟩ := by
          simp only [processImages]
          rw [hb]
          simp [hc, ho]
        rw [hPI]
        exact ⟨fun h => Or.inl h, fun h => h⟩
      | true =>
        have hPI : processImages env req ps =
            ⟨(runBatch env ps none).products,
              { req with
                completed := true
                result_file := some (generateCsvContent (runBatch env ps none).rows) },
              none⟩ := by
          simp only [processImages]
          rw [hb]
          simp [hc, ho]
        rw [hPI]
        refine ⟨fun _ => Or.inr ⟨rfl, ?_, rfl⟩, fun _ => rfl⟩
        intro q hq
        rw [(runBatch_ok_spec env ps none hb).1] at hq
        obtain ⟨x, _, rfl⟩ := List.mem_map.mp hq
        rfl

/-- C4: when the product loop runs to completion, every item's stored output
list holds exactly one entry per input URL that was fetched, transcoded and
stored successfully, in the input URLs' order (so its length never exceeds
the input list's, and equals it when every input succeeds), every item is
marked processed, and the summary rows list the items in manifest order. -/
theorem c4_outputs_ordered_filtered (env : Env) (req : ProcessingRequest)
    (ps : List Product) (h : (runBatch env ps none).error = none) :
    (processImages env req ps).products = ps.map (processedProduct env) ∧
    (runBatch env ps none).rows =
        ps.map (fun p => summaryRowOf (processedProduct env p)) ∧
    (∀ p ∈ ps, (specOutputUrls env p).length ≤ (inputUrls p).length ∧
      ((∀ u ∈ inputUrls p, fetchOutcome env u = UrlOutcome.success) →
        (specOutputUrls env p).length = (inputUrls p).length)) := by
  obtain ⟨h1, h2⟩ := runBatch_ok_spec env ps none h
  refine ⟨by rw [processImages_products, h1], h2, ?_⟩
  intro p _
  constructor
  · calc (specOutputUrls env p).length
        = ((inputUrls p).filter
            (fun u => decide (fetchOutcome env u = UrlOutcome.success))).length := by
          simp [specOutputUrls]
      _ ≤ (inputUrls p).length := List.length_filter_le _ _
  · intro hall
    have hfil : (inputUrls p).filter
        (fun u => decide (fetchOutcome env u = UrlOutcome.success)) = inputUrls p := by
      apply List.filter_eq_self.mpr
      intro u hu
      simp [hall u hu]
    simp [specOutputUrls, hfil]

/-- C9: an item whose `input_image_urls` field is the empty string yields the
one-element URL list `[""]` (Python `"".split(",") == [""]`), so exactly one
fetch is attempted — of the empty URL, which `requests.get` rejects — and the
item is item-fatal: it stays unprocessed, the batch aborts with the fetch
`ValueError` and the request row is untouched.  The delimited encoding never
yields an empty URL list for any product. -/
theorem c9_empty_url_string_fatal (env : Env) (req : ProcessingRequest)
    (pre : List Product) (p : Product) (post : List Product)
    (hpre : (runBatch env pre none).error = none)
    (hp : p.input_image_urls = "") :
    inputUrls p = [""] ∧
    fetchOutcome env "" = UrlOutcome.fetchFailure ∧
    (processImages env req (pre ++ p :: post)).error =
        some (PyError.valueError ("Failed to fetch image from URL " ++ "")) ∧
    (processImages env req (pre ++ p :: post)).products =
        pre.map (processedProduct env) ++ p :: post ∧
    (processImages env req (pre ++ p :: post)).request = req ∧
    (∀ q : Product, inputUrls q ≠ []) := by
  have hin : inputUrls p = [""] := by
    rw [inputUrls, hp]
    rfl
  have hfetch : fetchOutcome env "" = UrlOutcome.fetchFailure := by
    simp [fetchOutcome]
  have hloop : processUrlsLoop env (inputUrls p)
      ⟨[], (runBatch env pre none).lastFilename⟩ =
      Except.error (PyError.valueError ("Failed to fetch image from URL " ++ "")) := by
    rw [hin]
    simp [processUrlsLoop, hfetch]
  rw [batch_fatal_on_loop_error env req pre p post _ hpre hloop]
  refine ⟨hin, hfetch, rfl, rfl, rfl, ?_⟩
  intro q
  have := pySplitChar_ne_nil ',' q.input_image_urls.data
  simp [inputUrls, pySplit]
  exact this

/-- C10: `UploadCSVView.post` persists the `ProcessingRequest` row before it
validates the CSV header, so an upload whose header cannot be read or misses
a required column gets a 400 error response while a request row with
`completed = false` (and no product rows) remains durably stored — the
upload is not atomic on validation failure. -/
theorem c10_upload_not_atomic (st : UploadState) (rid createdAt : String)
    (up : UploadRequest)
    (h1 : up.hasFile = true)
    (h2 : pyEndsWith up.fileName ".csv" = true)
    (h3 : up.fieldnames = none ∨
      ∃ fns, up.fieldnames = some fns ∧
        requiredColumns.filter (fun c => !(fns.contains c)) ≠ []) :
    (∃ msg, (uploadCsvPost st rid createdAt up).1 = ViewResponse.err msg (some 400)) ∧
    (uploadCsvPost st rid createdAt up).2.requests =
        st.requests ++ [⟨rid, createdAt, false, none⟩] ∧
    (uploadCsvPost st rid createdAt up).2.products = st.products := by
  rcases h3 with h3 | ⟨fns, hfns, hmiss⟩
  · refine ⟨⟨MSG_CSV_FILE_READ_ERROR, ?_⟩, ?_, ?_⟩ <;>
      simp [uploadCsvPost, h1, h2, h3]
  · have hmiss' : ∃ x ∈ requiredColumns, x ∉ fns := by
      simpa using hmiss
    refine ⟨⟨"Missing columns: " ++
        String.intercalate ", " (requiredColumns.filter (fun c => !(fns.contains c))), ?_⟩,
        ?_, ?_⟩ <;>
      simp [uploadCsvPost, h1, h2, hfns, hmiss']

/-- Witness for C2 at a concrete input: one item whose only URL fails to
fetch. -/
theorem c2_fetch_failure_halts_batch_witness :
    (processImages envFetchAll reqA (([] : List Product) ++ prodA :: [])).error =
        some (PyError.valueError ("Failed to fetch image from URL " ++ "http://host/a.jpg")) ∧
    (processImages envFetchAll reqA (([] : List Product) ++ prodA :: [])).products =
        ([] : List Product).map (processedProduct envFetchAll) ++ prodA :: [] ∧
    (processImages envFetchAll reqA (([] : List Product) ++ prodA :: [])).request = reqA :=
  c2_fetch_failure_halts_batch envFetchAll reqA [] prodA [] [] "http://host/a.jpg" []
    ⟨[], none⟩ (by decide) (by decide) (by decide) (by decide)

/-- Witness for C3 at a concrete input: a fully successful run of one item
ends with the completed flag true, forcing the right disjunct — run
error-free, all products processed, artifact saved. -/
theorem c3_completed_flag_gated_witness :
    reqA.completed = true ∨
      ((processImages envOk reqA [prodA]).error = none ∧
        (∀ q ∈ (processImages envOk reqA [prodA]).products, q.processed = true) ∧
        (processImages envOk reqA [prodA]).request.result_file =
          some (generateCsvContent (runBatch envOk [prodA] none).rows)) :=
  (c3_completed_flag_gated envOk reqA [prodA]).1 (by decide)

/-- Witness for C4 at a concrete input: a fully successful run of one item
stores its processed form. -/
theorem c4_outputs_ordered_filtered_witness :
    (processImages envOk reqA [prodA]).products = [prodA].map (processedProduct envOk) :=
  (c4_outputs_ordered_filtered envOk reqA [prodA] (by decide)).1

/-- Witness for C9 at a concrete input: an item with an empty
`input_image_urls` aborts the run with the fetch `ValueError`. -/
theorem c9_empty_url_string_fatal_witness :
    (processImages envOk reqA (([] : List Product) ++ prodEmptyUrls :: [])).error =
      some (PyError.valueError ("Failed to fetch image from URL " ++ "")) :=
  (c9_empty_url_string_fatal envOk reqA [] prodEmptyUrls [] (by decide) (by decide)).2.2.1

/-- Witness for C10 at a concrete input: an upload with a readable header
missing two required columns leaves the request row stored. -/
theorem c10_upload_not_atomic_witness :
    (uploadCsvPost ⟨[], []⟩ "rid-1" "2024-01-01T00:00:00Z" upMissingCols).2.requests =
      ([] : List ProcessingRequest) ++ [⟨"rid-1", "2024-01-01T00:00:00Z", false, none⟩] :=
  (c10_upload_not_atomic ⟨[], []⟩ "rid-1" "2024-01-01T00:00:00Z" upMissingCols
    (by decide) (by decide)
    (Or.inr ⟨["Serial Number"], by decide, by decide⟩)).2.1


theorem parseQuotedField_escape (f : List Char) (rest : List Char)
    (h : rest.head? ≠ some dq) :
    parseQuotedField (csvEscape f ++ dq :: rest) = some (f, rest) := by
  induction f with
  | nil =>
    cases rest with
    | nil => simp [csvEscape, parseQuotedField]
    | cons c2 r2 =>
      have hc2 : ¬ c2 = dq := by
        intro hh
        exact h (by simp [hh])
      simp [csvEscape, parseQuotedField, hc2]
  | cons c f ih =>
    by_cases hc : c = dq
    · subst hc
      rw [csvEscape, if_pos rfl, List.cons_append, List.cons_append]
      rw [parseQuotedField.eq_def]
      simp only [if_pos rfl]
      rw [ih]
      rfl
    · rw [csvEscape, if_neg hc, List.cons_append]
      rw [parseQuotedField.eq_def]
      simp only [if_neg hc]
      rw [ih]
      rfl

theorem parseUnquotedField_extend (f : List Char) (rest : List Char)
    (hf : ',' ∉ f) (hrest : rest = [] ∨ rest.head? = some ',') :
    parseUnquotedField (f ++ rest) = (f, rest) := by
  induction f with
  | nil =>
    rcases hrest with rfl | hr
    · simp [parseUnquotedField]
    · cases rest with
      | nil => simp at hr
      | cons c r =>
        have : c = ',' := by simpa using hr
        subst this
        simp [parseUnquotedField]
  | cons c f ih =>
    have hc : ¬ c = ',' := fun hh => hf (by simp [hh])
    have hf' : ',' ∉ f := fun hh => hf (by simp [hh])
    simp [parseUnquotedField, hc, ih hf']

theorem csvNeedsQuote_false (f : List Char) (h : csvNeedsQuote f = false) :
    ',' ∉ f ∧ dq ∉ f ∧ '\r' ∉ f ∧ '\n' ∉ f := by
  induction f with
  | nil => simp
  | cons c f ih =>
    by_cases hc : c = ',' ∨ c = dq ∨ c = '\r' ∨ c = '\n'
    · rw [csvNeedsQuote, if_pos hc] at h
      exact absurd h (by simp)
    · rw [csvNeedsQuote, if_neg hc] at h
      push_neg at hc
      obtain ⟨h1, h2, h3, h4⟩ := hc
      obtain ⟨i1, i2, i3, i4⟩ := ih h
      refine ⟨?_, ?_, ?_, ?_⟩ <;> intro hmem
      · rcases List.mem_cons.mp hmem with hh | hh
        · exact h1 hh.symm
        · exact i1 hh
      · rcases List.mem_cons.mp hmem with hh | hh
        · exact h2 hh.symm
        · exact i2 hh
      · rcases List.mem_cons.mp hmem with hh | hh
        · exact h3 hh.symm
        · exact i3 hh
      · rcases List.mem_cons.mp hmem with hh | hh
        · exact h4 hh.symm
        · exact i4 hh

theorem parseFieldAt_print (f : List Char) (rest : List Char)
    (hrest : rest = [] ∨ rest.head? = some ',') :
    parseFieldAt (csvFieldChars f ++ rest) = some (f, rest) := by
  unfold csvFieldChars
  cases hq : csvNeedsQuote f with
  | true =>
    have hne : rest.head? ≠ some dq := by
      rcases hrest with rfl | hr
      · simp
      · rw [hr]
        intro hh
        have : ',' = dq := by simpa using hh
        exact absurd this (by decide)
    have hkey := parseQuotedField_escape f rest hne
    rw [if_pos rfl, List.cons_append, List.append_assoc, List.singleton_append]
    rw [parseFieldAt]
    simp only [if_pos rfl, List.tail_cons]
    exact hkey
  | false =>
    rw [if_neg (show ¬ false = true by decide)]
    obtain ⟨hc, hd, _, _⟩ := csvNeedsQuote_false f hq
    cases f with
    | nil =>
      rcases hrest with rfl | hr
      · simp [parseFieldAt]
      · cases rest with
        | nil => simp at hr
        | cons c r =>
          have : c = ',' := by simpa using hr
          subst this
          simp [parseFieldAt, parseUnquotedField, show ¬ (',' = dq) by decide]
    | cons a f' =>
      have ha : ¬ a = dq := fun hh => hd (by simp [hh])
      have hun := parseUnquotedField_extend (a :: f') rest hc hrest
      rw [List.cons_append, parseFieldAt]
      simp only [if_neg ha]
      rw [← List.cons_append, hun]

theorem csvRecordChars_length (fields : List (List Char)) :
    fields.length ≤ (csvRecordChars fields).length + 1 := by
  induction fields with
  | nil => simp [csvRecordChars]
  | cons f fs ih =>
    cases fs with
    | nil => simp [csvRecordChars]
    | cons g gs =>
      have hrec : csvRecordChars (f :: g :: gs) =
          csvFieldChars f ++ ',' :: csvRecordChars (g :: gs) := rfl
      rw [hrec]
      simp only [List.length_cons, List.length_append] at ih ⊢
      omega

theorem parseRecordAux_print (fields : List (List Char)) : ∀ fuel, fields ≠ [] →
    fields.length ≤ fuel → parseRecordAux fuel (csvRecordChars fields) = some fields := by
  induction fields with
  | nil => exact fun fuel hne _ => absurd rfl hne
  | cons f fs ih =>
    intro fuel _ hlen
    cases fuel with
    | zero => simp at hlen
    | succ n =>
      cases fs with
      | nil =>
        have hfa := parseFieldAt_print f [] (Or.inl rfl)
        rw [List.append_nil] at hfa
        have hrec : csvRecordChars [f] = csvFieldChars f := rfl
        rw [hrec, parseRecordAux, hfa]
      | cons g gs =>
        have hrec : csvRecordChars (f :: g :: gs) =
            csvFieldChars f ++ ',' :: csvRecordChars (g :: gs) := rfl
        have hfa := parseFieldAt_print f (',' :: csvRecordChars (g :: gs)) (Or.inr rfl)
        have hlen' : (g :: gs).length ≤ n := by
          simp only [List.length_cons] at hlen ⊢
          omega
        rw [hrec, parseRecordAux, hfa]
        simp only [if_pos rfl]
        rw [ih n (by simp) hlen']
        rfl

theorem parseRecord_print (fields : List (List Char)) (hne : fields ≠ []) :
    parseRecord (csvRecordChars fields) = some fields := by
  apply parseRecordAux_print fields _ hne
  have := csvRecordChars_length fields
  omega

theorem mem_csvEscape (c : Char) (f : List Char) (h : c ∈ csvEscape f) :
    c ∈ f ∨ c = dq := by
  induction f with
  | nil => simp [csvEscape] at h
  | cons a f ih =>
    by_cases ha : a = dq
    · rw [csvEscape, if_pos ha] at h
      rcases List.mem_cons.mp h with h1 | h1
      · exact Or.inr h1
      · rcases List.mem_cons.mp h1 with h2 | h2
        · exact Or.inr h2
        · rcases ih h2 with h3 | h3
          · exact Or.inl (List.mem_cons_of_mem a h3)
          · exact Or.inr h3
    · rw [csvEscape, if_neg ha] at h
      rcases List.mem_cons.mp h with h1 | h1
      · exact Or.inl (by simp [h1])
      · rcases ih h1 with h3 | h3
        · exact Or.inl (List.mem_cons_of_mem a h3)
        · exact Or.inr h3

theorem mem_csvFieldChars (c : Char) (f : List Char) (h : c ∈ csvFieldChars f) :
    c ∈ f ∨ c = dq := by
  unfold csvFieldChars at h
  cases hq : csvNeedsQuote f with
  | true =>
    rw [hq, if_pos rfl] at h
    rcases List.mem_cons.mp h with h1 | h1
    · exact Or.inr h1
    · rcases List.mem_append.mp h1 with h2 | h2
      · exact mem_csvEscape c f h2
      · exact Or.inr (by simpa using h2)
  | false =>
    rw [hq, if_neg (show ¬ false = true by decide)] at h
    exact Or.inl h

theorem mem_csvRecordChars (c : Char) (fields : List (List Char))
    (h : c ∈ csvRecordChars fields) : (∃ f ∈ fields, c ∈ f) ∨ c = dq ∨ c = ',' := by
  induction fields with
  | nil => simp [csvRecordChars] at h
  | cons f fs ih =>
    cases fs with
    | nil =>
      have hf : c ∈ csvFieldChars f := h
      rcases mem_csvFieldChars c f hf with h1 | h1
      · exact Or.inl ⟨f, by simp, h1⟩
      · exact Or.inr (Or.inl h1)
    | cons g gs =>
      have hrec : csvRecordChars (f :: g :: gs) =
          csvFieldChars f ++ ',' :: csvRecordChars (g :: gs) := rfl
      rw [hrec] at h
      rcases List.mem_append.mp h with h1 | h1
      · rcases mem_csvFieldChars c f h1 with h2 | h2
        · exact Or.inl ⟨f, by simp, h2⟩
        · exact Or.inr (Or.inl h2)
      · rcases List.mem_cons.mp h1 with h2 | h2
        · exact Or.inr (Or.inr h2)
        · rcases ih h2 with ⟨f', hf', hc'⟩ | h3
          · exact Or.inl ⟨f', List.mem_cons_of_mem f hf', hc'⟩
          · exact Or.inr h3

theorem noCR_csvRecordChars (fields : List (List Char))
    (h : ∀ f ∈ fields, '\r' ∉ f) : '\r' ∉ csvRecordChars fields := by
  intro hmem
  rcases mem_csvRecordChars _ _ hmem with ⟨f, hf, hc⟩ | hcc | hcc
  · exact h f hf hc
  · exact absurd hcc (by decide)
  · exact absurd hcc (by decide)

theorem splitCRLF_crlf (rest : List Char) :
    splitCRLF ('\r' :: '\n' :: rest) = [] :: splitCRLF rest := by
  rw [splitCRLF]
  simp

theorem splitCRLF_append_line (line rest : List Char) (h : '\r' ∉ line) :
    splitCRLF (line ++ '\r' :: '\n' :: rest) = line :: splitCRLF rest := by
  induction line with
  | nil => simpa using splitCRLF_crlf rest
  | cons c line' ih =>
    have hc : ¬ c = '\r' := fun hh => h (by simp [hh])
    have h' : '\r' ∉ line' := fun hh => h (by simp [hh])
    cases line' with
    | nil =>
      have hcond : ¬ (c = '\r' ∧ '\r' = '\n') := by
        rintro ⟨_, h2⟩
        exact absurd h2 (by decide)
      show splitCRLF (c :: '\r' :: '\n' :: rest) = [c] :: splitCRLF rest
      rw [splitCRLF, if_neg hcond, splitCRLF_crlf rest]
    | cons d line'' =>
      have hcond : ¬ (c = '\r' ∧ d = '\n') := fun hh => hc hh.1
      have hih := ih h'
      show splitCRLF (c :: d :: (line'' ++ '\r' :: '\n' :: rest)) = _
      rw [splitCRLF, if_neg hcond]
      rw [show d :: (line'' ++ '\r' :: '\n' :: rest) =
        (d :: line'') ++ '\r' :: '\n' :: rest from rfl, hih]

theorem splitCRLF_csvLines (rs : List (List Char)) (h : ∀ r ∈ rs, '\r' ∉ r) :
    splitCRLF (csvLines rs) = rs ++ [[]] := by
  induction rs with
  | nil => simp [csvLines, splitCRLF]
  | cons r rs ih =>
    rw [csvLines, splitCRLF_append_line r _ (h r (by simp)),
      ih (fun x hx => h x (List.mem_cons_of_mem r hx))]
    rfl

theorem dropLast_append_single (l : List α) (a : α) : (l ++ [a]).dropLast = l := by
  simp

theorem parseRecords_print (fieldss : List (List (List Char)))
    (h : ∀ fs ∈ fieldss, fs ≠ []) :
    parseRecords (fieldss.map csvRecordChars) = some fieldss := by
  induction fieldss with
  | nil => rfl
  | cons fs fss ih =>
    rw [List.map_cons, parseRecords, parseRecord_print fs (h fs (by simp)),
      ih (fun x hx => h x (List.mem_cons_of_mem fs hx))]

theorem parseArtifact_generate (rows : List SummaryRow)
    (hcr : ∀ row ∈ rows, ∀ f ∈ rowFieldsChars row, '\r' ∉ f) :
    parseArtifact (generateCsvContent rows) =
      some ((summaryHeaderFields.map String.data) :: rows.map rowFieldsChars) := by
  have hheader : ∀ f ∈ summaryHeaderFields.map String.data, '\r' ∉ f := by decide
  have hCRfree : ∀ r ∈ ((summaryHeaderFields.map String.data) ::
      rows.map rowFieldsChars).map csvRecordChars, '\r' ∉ r := by
    intro r hr
    obtain ⟨fs, hfs, rfl⟩ := List.mem_map.mp hr
    apply noCR_csvRecordChars
    intro f hf
    rcases List.mem_cons.mp hfs with h1 | h1
    · subst h1
      exact hheader f hf
    · obtain ⟨row, hrow, rfl⟩ := List.mem_map.mp h1
      exact hcr row hrow f hf
  simp only [parseArtifact, generateCsvContent]
  rw [show generateCsvChars rows = csvLines (((summaryHeaderFields.map String.data) ::
    rows.map rowFieldsChars).map csvRecordChars) from rfl]
  rw [splitCRLF_csvLines _ hCRfree, dropLast_append_single, parseRecords_print]
  intro fs hfs
  rcases List.mem_cons.mp hfs with h1 | h1
  · subst h1
    simp [summaryHeaderFields]
  · obtain ⟨row, _, rfl⟩ := List.mem_map.mp h1
    simp [rowFieldsChars, rowFields]

theorem processImages_result_file (env : Env) (req : ProcessingRequest) (ps : List Product)
    (hb : (runBatch env ps none).error = none) (hcsv : env.csvSaveOk = true) :
    (processImages env req ps).request.result_file =
      some (generateCsvContent (runBatch env ps none).rows) := by
  simp only [processImages]
  rw [hb]
  cases ho : env.completeOk <;> simp [hcsv, ho]

/-- C5: when the run succeeds, the saved summary artifact is exactly the
generated CSV — the fixed header record followed by one record per item in
processing order — and parsing that artifact back recovers, for every item,
its serial number, name, original input-URL string and comma-joined
output-URL string, byte-exactly. -/
theorem c5_summary_artifact_roundtrip (env : Env) (req : ProcessingRequest)
    (ps : List Product)
    (h : (runBatch env ps none).error = none)
    (hcsv : env.csvSaveOk = true)
    (hcr : ∀ row ∈ (runBatch env ps none).rows, ∀ f ∈ rowFieldsChars row, '\r' ∉ f) :
    (processImages env req ps).request.result_file =
        some (generateCsvContent (runBatch env ps none).rows) ∧
    parseArtifact (generateCsvContent (runBatch env ps none).rows) =
        some ((summaryHeaderFields.map String.data) ::
          ((runBatch env ps none).rows).map rowFieldsChars) ∧
    (runBatch env ps none).rows =
        ps.map (fun p => summaryRowOf (processedProduct env p)) :=
  ⟨processImages_result_file env req ps h hcsv,
   parseArtifact_generate _ hcr,
   (runBatch_ok_spec env ps none h).2⟩

/-- Witness for C5 at a concrete input: the artifact of a successful
one-item run parses back to the header record plus the item's row. -/
theorem c5_summary_artifact_roundtrip_witness :
    parseArtifact (generateCsvContent (runBatch envOk [prodA] none).rows) =
      some ((summaryHeaderFields.map String.data) ::
        ((runBatch envOk [prodA] none).rows).map rowFieldsChars) :=
  (c5_summary_artifact_roundtrip envOk reqA [prodA] (by decide) (by decide)
    (by decide)).2.1
